import Mathlib

/-!
Shallow embedding of the text-to-sql-ai-agent repository's core:
the SQL safety validator (`validate_sql`), the execution engine
(`execute_sql`), the per-worker connection loop (`get_db_connection`),
and the retry orchestration described by the system prompt.

Python strings are modelled as `List Char`; each Python string
operation used by the source is given a small executable Lean
counterpart, and the functions compose exactly as the source does.
-/

namespace TextToSql

/-- Python whitespace characters, the set used by `str.strip()` and the
regex class in `re.sub(r';\s*$', ...)` (ASCII portion). -/
def isPyWS (c : Char) : Bool :=
  c == ' ' || c == '\t' || c == '\n' || c == '\r' || c == Char.ofNat 11 || c == Char.ofNat 12

/-- Left part of `str.strip()`: drop leading whitespace. -/
def lstripWS (l : List Char) : List Char := l.dropWhile isPyWS

/-- Right part of `str.strip()`: drop trailing whitespace (structural
recursion, no reverse). -/
def trimRight : List Char → List Char
  | [] => []
  | c :: rest =>
    match trimRight rest with
    | [] => if isPyWS c then [] else [c]
    | r => c :: r

/-- Python `str.strip()`. -/
def pyStrip (l : List Char) : List Char := trimRight (lstripWS l)

/-- Python `str.endswith(";")`. -/
def endsSemi : List Char → Bool
  | [] => false
  | [c] => c == ';'
  | _ :: c :: rest => endsSemi (c :: rest)

/-- Model of `re.sub(r';\s*$', '', s)` at line 105: when the text, after
ignoring trailing whitespace, ends with a semicolon, that semicolon and
the trailing whitespace are removed; otherwise the text is unchanged. -/
def removeTrailingSemi (l : List Char) : List Char :=
  if endsSemi (trimRight l) then (trimRight l).dropLast else l

/-- Python `str.rstrip(";")` at line 112. -/
def trimRightSemi : List Char → List Char
  | [] => []
  | c :: rest =>
    match trimRightSemi rest with
    | [] => if c == ';' then [] else [c]
    | r => c :: r

/-- The backtick character. -/
def btick : Char := Char.ofNat 96

/-- Does the list start with a case-insensitive sql code-fence opener,
the pattern of `re.sub` at line 106? -/
def isFenceAt : List Char → Bool
  | a :: b :: c :: d :: e :: f :: _ =>
    a == btick && b == btick && c == btick &&
    (d == 's' || d == 'S') && (e == 'q' || e == 'Q') && (f == 'l' || f == 'L')
  | _ => false

/-- Fueled scanner for `re.sub` with pattern backtick backtick backtick
sql `\s*` (IGNORECASE): every occurrence, with the whitespace that
follows it, is deleted; scanning resumes after the deleted stretch. -/
def goFences : Nat → List Char → List Char
  | 0, l => l
  | _ + 1, [] => []
  | fuel + 1, c :: rest =>
    if isFenceAt (c :: rest) then goFences fuel (((c :: rest).drop 6).dropWhile isPyWS)
    else c :: goFences fuel rest

/-- Model of `re.sub` removing sql code-fence markers (line 106). -/
def removeFences (l : List Char) : List Char := goFences l.length l

/-- The `clean_query` value reaching the multiple-statement check at
line 109: strip, remove one trailing terminator, remove fences. -/
def cleanedText (s : List Char) : List Char :=
  removeFences (removeTrailingSemi (pyStrip s))

/-- The multiple-statement condition at line 109:
`clean_query.count(";") > 0 or (clean_query.endswith(";") and ";" in clean_query[:-1])`. -/
def multiStmtB (c : List Char) : Bool :=
  decide (0 < c.count ';') || (endsSemi c && c.dropLast.contains ';')

/-- The `clean_query` value after line 112: `clean_query.rstrip(";").strip()`. -/
def normText (s : List Char) : List Char :=
  pyStrip (trimRightSemi (cleanedText s))

/-- Characters that extend a word in the sqlparse-layer model; dots are
included so that dotted identifiers are not lexed as keywords. -/
def sqlWordChar (c : Char) : Bool := c.isAlphanum || c == '_' || c == '$' || c == '.'

/-- The single-quote character. -/
def squote : Char := Char.ofNat 39

/-- The double-quote character. -/
def dquote : Char := Char.ofNat 34

/-- Skip the body of a block comment up to and including the closer. -/
def dropBlockGo : Nat → List Char → List Char
  | 0, l => l
  | _ + 1, [] => []
  | _ + 1, '*' :: '/' :: rest => rest
  | fuel + 1, _ :: rest => dropBlockGo fuel rest

/-- Model of the token stream sqlparse's lexer hands to
`statement.flatten()` (lines 124-141), restricted to what the source
inspects: maximal word runs lying outside string literals, quoted
identifiers and comments are the keyword candidates. -/
def sqlWordsGo : Nat → List Char → List (List Char)
  | 0, _ => []
  | _ + 1, [] => []
  | fuel + 1, c :: rest =>
    if c == squote then sqlWordsGo fuel ((rest.dropWhile (fun x => !(x == squote))).drop 1)
    else if c == dquote then sqlWordsGo fuel ((rest.dropWhile (fun x => !(x == dquote))).drop 1)
    else if c == '-' && rest.head? == some '-' then
      sqlWordsGo fuel (rest.dropWhile (fun x => !(x == '\n')))
    else if c == '/' && rest.head? == some '*' then sqlWordsGo fuel (dropBlockGo rest.length rest)
    else if sqlWordChar c then
      (c :: rest.takeWhile sqlWordChar) :: sqlWordsGo fuel (rest.dropWhile sqlWordChar)
    else sqlWordsGo fuel rest

/-- Word tokens of the sqlparse-layer model. -/
def sqlparseWords (l : List Char) : List (List Char) := sqlWordsGo l.length l

/-- Python `str.upper()` on ASCII words. -/
def upperL (w : List Char) : List Char := w.map Char.toUpper

/-- The `forbidden_types` set of the sqlparse layer (lines 115-119).
Note it lacks REPLACE, EXEC and EXECUTE. -/
def forbiddenStructural : List (List Char) :=
  ["INSERT", "UPDATE", "DELETE", "DROP", "CREATE", "ALTER", "TRUNCATE",
   "GRANT", "REVOKE", "MERGE", "COMMIT"].map String.toList

/-- The words of the regex layer's first two `dangerous_patterns`
(lines 150-152): the eleven structural keywords plus REPLACE, EXEC and
EXECUTE. -/
def forbiddenRegexWords : List (List Char) :=
  ["INSERT", "UPDATE", "DELETE", "ALTER", "DROP", "CREATE", "REPLACE", "TRUNCATE",
   "GRANT", "REVOKE", "MERGE", "COMMIT", "EXEC", "EXECUTE"].map String.toList

/-- The `found_statements` content of the sqlparse layer (lines
121-144): the first keyword token whose uppercase form is in
`forbidden_types`, reported uppercased; empty when none occurs (also
when the text is empty, where `sqlparse.parse` yields no statements). -/
def sqlparseFindings (l : List Char) : List (List Char) :=
  match (sqlparseWords l).find? (fun w => forbiddenStructural.contains (upperL w)) with
  | some w => [upperL w]
  | none => []

/-- Characters of `\w` in the regex layer's `\b(...)\b` patterns. -/
def regexWordChar (c : Char) : Bool := c.isAlphanum || c == '_'

/-- Maximal `\w` runs of the text, fueled. -/
def splitRunsGo : Nat → List Char → List (List Char)
  | 0, _ => []
  | _ + 1, [] => []
  | fuel + 1, c :: rest =>
    if regexWordChar c then
      (c :: rest.takeWhile regexWordChar) :: splitRunsGo fuel (rest.dropWhile regexWordChar)
    else splitRunsGo fuel rest

/-- Maximal `\w` runs of the text: `\b(W)\b` matches case-insensitively
iff some run uppercases to W. -/
def regexWords (l : List Char) : List (List Char) := splitRunsGo l.length l

/-- Python `str.startswith` on char lists: `hasPrefixSeq l pre`. -/
def hasPrefixSeq : List Char → List Char → Bool
  | _, [] => true
  | [], _ :: _ => false
  | c :: rest, p :: ps => c == p && hasPrefixSeq rest ps

/-- Substring occurrence test. -/
def containsSeqB (l pat : List Char) : Bool :=
  (List.range (l.length + 1)).any fun i => hasPrefixSeq (l.drop i) pat

/-- The regex fallback scan (lines 149-159): the forbidden-word
alternations plus the line-comment and block-comment introducers,
case-insensitive, over the normalized text. -/
def regexHit (l : List Char) : Bool :=
  (regexWords l).any (fun w => forbiddenRegexWords.contains (upperL w)) ||
    containsSeqB l "--".toList || containsSeqB l "/*".toList

/-- Occurrence test for a sql code-fence opener anywhere in the text. -/
def hasFenceB (l : List Char) : Bool :=
  (List.range (l.length + 1)).any fun i => isFenceAt (l.drop i)

/-- The four return sites of `validate_sql`, tagged. -/
inductive VResult where
  | multipleStatements : VResult
  | forbidden : List (List Char) → VResult
  | unsafePattern : VResult
  | valid : List Char → VResult
  deriving DecidableEq

/-- The body of `validate_sql` (lines 100-162), parameterized by the
structural classification layer: `none` models `sqlparse.parse`
raising (caught at line 146, execution falls through to the regex
scan), `some []` models a parse with no forbidden findings, and a
nonempty list is the found-statements report. -/
def validateWithR (f : List Char → Option (List (List Char))) (s : List Char) : VResult :=
  if multiStmtB (cleanedText s) then .multipleStatements
  else
    match f (normText s) with
    | some (w :: ws) => .forbidden (w :: ws)
    | _ => if regexHit (normText s) then .unsafePattern else .valid (normText s)

/-- The modelled sqlparse layer never raises. -/
def sqlparseModel (l : List Char) : Option (List (List Char)) :=
  some (sqlparseFindings l)

/-- `validate_sql` with the modelled sqlparse layer plugged in. -/
def validateR (s : List Char) : VResult := validateWithR sqlparseModel s

/-- Python `', '.join`. -/
def joinComma : List (List Char) → List Char
  | [] => []
  | [w] => w
  | w :: rest => w ++ ", ".toList ++ joinComma rest

/-- The exact strings returned by `validate_sql`. -/
def vmsg : VResult → List Char
  | .multipleStatements =>
    "ERROR: Multiple SQL statements detected. Only single SELECT statements are allowed.".toList
  | .forbidden fs => "ERROR: Forbidden SQL statements detected: ".toList ++ joinComma fs
  | .unsafePattern => "ERROR: Unsafe SQL pattern detected".toList
  | .valid n => "Valid: ".toList ++ n

/-- `validate_sql` as the string-to-string function of the source. -/
def validate_sql (s : List Char) : List Char := vmsg (validateR s)

/-- The prefix tested by `validation_result.startswith("ERROR")` at
line 170 of `execute_sql`. -/
def errTok : List Char := "ERROR".toList

/-- Fixed pieces of the early-return message of `execute_sql`
(lines 171-176). -/
def cannotExecHead : List Char := "ERROR: Cannot execute SQL. ".toList

/-- Text between the validation result and the echoed SQL. -/
def cannotExecMid : List Char :=
  "\n\n            Problematic SQL:\n            ".toList

/-- Closing text of the early-return message. -/
def cannotExecTail : List Char :=
  "\n\n            Please regenerate the SQL query without these forbidden operations.".toList

/-- The early-return message of `execute_sql` for a rejected candidate. -/
def cannotExecMsg (v sql : List Char) : List Char :=
  cannotExecHead ++ v ++ cannotExecMid ++ sql ++ cannotExecTail

/-- Fixed pieces of the exception-handler message of `execute_sql`
(lines 190-202). -/
def execFailHead : List Char :=
  "ERROR: Failed to execute SQL query.\n\n        Error Details: ".toList

/-- Text between the captured error and the echoed SQL. -/
def execFailMid : List Char := "\n\n        Problematic SQL:\n        ".toList

/-- Closing text of the exception-handler message. -/
def execFailTail : List Char :=
  "\n\n        Please analyze the error and regenerate a corrected SQL query. Common issues:\n        - Invalid table/column names (check schema)\n        - Syntax errors\n        - Type mismatches\n        - Missing JOIN conditions\n        ".toList

/-- The message built by the `except` branch of `execute_sql`: the
captured error text and the failed SQL, wrapped in fixed text. -/
def execFailMsg (e sql : List Char) : List Char :=
  execFailHead ++ e ++ execFailMid ++ sql ++ execFailTail

/-- The body of `execute_sql` (lines 164-202). The database call
`conn.execute(sql_query)` followed by `fetchdf`/`to_string` is the
collaborator `db`: `.ok` carries the rendered data frame, `.error`
carries the exception text raised during execution. Note the source
hands `db` the raw `sql_query`, not the normalized text. -/
def execute_sqlR (db : List Char → Except (List Char) (List Char)) (sql : List Char) :
    List Char :=
  if hasPrefixSeq (vmsg (validateR sql)) errTok then cannotExecMsg (vmsg (validateR sql)) sql
  else
    match db sql with
    | .ok r => r
    | .error e => execFailMsg e sql

/-- The SQL text handed to `conn.execute` at line 182 of `execute_sql`,
`none` when the early return fires before the connection is touched. -/
def execDbInput (sql : List Char) : Option (List Char) :=
  if hasPrefixSeq (vmsg (validateR sql)) errTok then none else some sql

/-- Substring containment, for statements about message contents. -/
def ContainsSeq (big small : List Char) : Prop :=
  ∃ a b, big = a ++ small ++ b

/-- One candidate location of `get_db_connection` (graph.py lines
37-51): the first component is the outcome of `duckdb.connect` (`none`
when it raises), the second whether the four `LOAD` statements that run
after the cache assignment succeed. -/
abbrev Candidate (α : Type) := Option α × Bool

/-- The `for db_path in DB_PATHS` loop of `get_db_connection`: returns
the connection of the candidate that broke the loop (if any), the final
cached value of `thread_local.conn`, and how many candidates were
attempted. The cache is assigned as soon as `duckdb.connect` succeeds,
before the `LOAD` statements run. -/
def connectLoop {α : Type} : List (Candidate α) → Option α → Option α × Option α × Nat
  | [], cache => (none, cache, 0)
  | (oc, lo) :: rest, cache =>
    match oc with
    | none =>
      ((connectLoop rest cache).1, (connectLoop rest cache).2.1,
       (connectLoop rest cache).2.2 + 1)
    | some conn =>
      if lo then (some conn, some conn, 1)
      else ((connectLoop rest (some conn)).1, (connectLoop rest (some conn)).2.1,
            (connectLoop rest (some conn)).2.2 + 1)

/-- The message of the `raise Exception` at graph.py line 53. -/
def noDataSourceMsg : List Char := "Failed to connect to any database path".toList

/-- `get_db_connection` (graph.py lines 34-54): `st` is the worker's
`thread_local.conn` slot before the call; the result bundles the
returned or raised outcome, the slot after the call, and the number of
candidates attempted during the call. -/
def get_db_connection {α : Type} (paths : List (Candidate α)) (st : Option α) :
    Except (List Char) α × Option α × Nat :=
  match st with
  | some c => (.ok c, some c, 0)
  | none =>
    match connectLoop paths none with
    | (some conn, cache, n) => (.ok conn, cache, n)
    | (none, cache, n) => (.error noDataSourceMsg, cache, n)

/-- Maximum attempt count of the retry loop; the system prompt
(system_prompt.py lines 91-101) fixes it at 3. -/
def maxAttempts : Nat := 3

/-- Terminal states of the retry orchestration. -/
inductive OrchOutcome where
  | succeeded : List Char → OrchOutcome
  | exhausted : OrchOutcome
  deriving DecidableEq

/-- Is a verdict an accept? -/
def isValidV : VResult → Bool
  | .valid _ => true
  | _ => false

/-- Modelled from the spec: the Retry Orchestrator of spec section 4.4.
The repository implements this loop only as natural-language prompt
instructions (system_prompt.py, `text_to_sql_agent_prompt`), so the
state machine is taken from the spec: at attempt `i` the candidate is
validated; a rejection moves to Correcting without touching the
Execution Engine; an accept runs the engine on the normalized text; in
Correcting, `i + 1 >= maxAttempts` ends in Exhausted, otherwise the
correction collaborator supplies candidate `i + 1`. Returns the
outcome, the attempts consumed from here, and the engine calls made. -/
def orchGo (cand : Nat → List Char) (execF : List Char → Except (List Char) (List Char)) :
    Nat → Nat → OrchOutcome × Nat × Nat
  | _, 0 => (.exhausted, 0, 0)
  | i, fuel + 1 =>
    match validateR (cand i) with
    | .valid n =>
      match execF n with
      | .ok r => (.succeeded r, 1, 1)
      | .error _ =>
        if maxAttempts ≤ i + 1 then (.exhausted, 1, 1)
        else ((orchGo cand execF (i + 1) fuel).1,
              (orchGo cand execF (i + 1) fuel).2.1 + 1,
              (orchGo cand execF (i + 1) fuel).2.2 + 1)
    | _ =>
      if maxAttempts ≤ i + 1 then (.exhausted, 1, 0)
      else ((orchGo cand execF (i + 1) fuel).1,
            (orchGo cand execF (i + 1) fuel).2.1 + 1,
            (orchGo cand execF (i + 1) fuel).2.2)

/-- Modelled from the spec: one full request, starting at
`attemptIndex = 0` in state Generating; `cand i` is the text produced
by the generation collaborator (`i = 0`) or the correction collaborator
(`i >= 1`). -/
def orchRun (cand : Nat → List Char) (execF : List Char → Except (List Char) (List Char)) :
    OrchOutcome × Nat × Nat :=
  orchGo cand execF 0 maxAttempts

/-! ## Helper lemmas about the string pipeline -/

lemma count_dropWhile_of_not {p : Char → Bool} {a : Char} (ha : p a = false) :
    ∀ l : List Char, (l.dropWhile p).count a = l.count a := by
  intro l
  induction l with
  | nil => rfl
  | cons c rest ih =>
    by_cases hc : p c
    · have hne : (c == a) = false := by
        rcases hbe : c == a with _ | _
        · rfl
        · exact absurd ha (by rw [← eq_of_beq hbe, hc]; simp)
      simp [List.dropWhile_cons, hc, ih, List.count_cons, hne]
    · simp [List.dropWhile_cons, hc]

lemma dropWhile_idem (p : Char → Bool) (l : List Char) :
    (l.dropWhile p).dropWhile p = l.dropWhile p := by
  induction l with
  | nil => rfl
  | cons c rest ih =>
    by_cases hc : p c
    · simp [List.dropWhile_cons, hc, ih]
    · simp [List.dropWhile_cons, hc]

lemma lstrip_idem (l : List Char) : lstripWS (lstripWS l) = lstripWS l :=
  dropWhile_idem isPyWS l

lemma trimRight_eq_nil : ∀ {l : List Char}, trimRight l = [] → ∀ c ∈ l, isPyWS c = true := by
  intro l
  induction l with
  | nil => intro _ c hc; cases hc
  | cons c rest ih =>
    intro h x hx
    cases hr : trimRight rest with
    | nil =>
      rw [trimRight, hr] at h
      by_cases hc : isPyWS c
      · rcases List.mem_cons.mp hx with hx1 | hx1
        · rw [hx1]; exact hc
        · exact ih hr x hx1
      · simp [hc] at h
    | cons r rs =>
      rw [trimRight, hr] at h
      cases h

lemma count_trimRight {a : Char} (ha : isPyWS a = false) :
    ∀ l : List Char, (trimRight l).count a = l.count a := by
  intro l
  induction l with
  | nil => rfl
  | cons c rest ih =>
    cases hr : trimRight rest with
    | nil =>
      have hrest : rest.count a = 0 := by
        rw [List.count_eq_zero]
        intro hmem
        exact absurd (trimRight_eq_nil hr a hmem) (by rw [ha]; simp)
      rw [trimRight, hr]
      by_cases hc : isPyWS c
      · have hne : (c == a) = false := by
          rcases hbe : c == a with _ | _
          · rfl
          · exact absurd ha (by rw [← eq_of_beq hbe, hc]; simp)
        simp [hc, List.count_cons, hne, hrest]
      · simp [hc, List.count_cons, hrest]
    | cons r rs =>
      have h1 : trimRight (c :: rest) = c :: r :: rs := by rw [trimRight, hr]
      rw [h1, ← hr, List.count_cons, List.count_cons, ih]

lemma trimRight_idem : ∀ l : List Char, trimRight (trimRight l) = trimRight l := by
  intro l
  induction l with
  | nil => rfl
  | cons c rest ih =>
    cases hr : trimRight rest with
    | nil =>
      rw [trimRight, hr]
      by_cases hc : isPyWS c
      · simp [hc, trimRight]
      · simp [hc, trimRight]
    | cons r rs =>
      have h1 : trimRight (c :: rest) = c :: r :: rs := by rw [trimRight, hr]
      have h2 : trimRight (r :: rs) = r :: rs := by rw [← hr, ih, hr]
      rw [h1, trimRight, h2]

lemma trimRight_sublist : ∀ l : List Char, List.Sublist (trimRight l) l := by
  intro l
  induction l with
  | nil => exact List.Sublist.refl []
  | cons c rest ih =>
    cases hr : trimRight rest with
    | nil =>
      rw [trimRight, hr]
      by_cases hc : isPyWS c
      · simp [hc]
      · simp [hc]
    | cons r rs =>
      have h1 : trimRight (c :: rest) = c :: r :: rs := by rw [trimRight, hr]
      rw [h1]
      rw [hr] at ih
      exact List.Sublist.cons₂ c ih

lemma lstrip_head_not_ws {l : List Char} (h : lstripWS l = l) :
    ∀ c rest, l = c :: rest → isPyWS c = false := by
  intro c rest hl
  subst hl
  by_cases hc : isPyWS c
  · exfalso
    rw [lstripWS, List.dropWhile_cons, if_pos hc] at h
    have hlen := congrArg List.length h
    have : (rest.dropWhile isPyWS).length ≤ rest.length := (List.dropWhile_sublist _).length_le
    simp at hlen
    omega
  · exact eq_false_of_ne_true hc

lemma lstrip_trimRight {l : List Char} (h : lstripWS l = l) :
    lstripWS (trimRight l) = trimRight l := by
  cases l with
  | nil => rfl
  | cons c rest =>
    have hc : isPyWS c = false := lstrip_head_not_ws h c rest rfl
    cases hr : trimRight rest with
    | nil =>
      rw [trimRight, hr]
      simp [hc, lstripWS, List.dropWhile_cons]
    | cons r rs =>
      have h1 : trimRight (c :: rest) = c :: r :: rs := by rw [trimRight, hr]
      rw [h1]
      simp [lstripWS, List.dropWhile_cons, hc]

lemma pyStrip_idem (l : List Char) : pyStrip (pyStrip l) = pyStrip l := by
  unfold pyStrip
  rw [lstrip_trimRight (lstrip_idem l), trimRight_idem]

lemma count_lstrip {a : Char} (ha : isPyWS a = false) (l : List Char) :
    (lstripWS l).count a = l.count a :=
  count_dropWhile_of_not ha l

lemma count_pyStrip {a : Char} (ha : isPyWS a = false) (l : List Char) :
    (pyStrip l).count a = l.count a := by
  unfold pyStrip
  rw [count_trimRight ha, count_lstrip ha]

lemma trimRightSemi_sublist : ∀ l : List Char, List.Sublist (trimRightSemi l) l := by
  intro l
  induction l with
  | nil => exact List.Sublist.refl []
  | cons c rest ih =>
    cases hr : trimRightSemi rest with
    | nil =>
      rw [trimRightSemi, hr]
      by_cases hc : (c == ';') = true
      · simp [hc]
      · simp [hc]
    | cons r rs =>
      have h1 : trimRightSemi (c :: rest) = c :: r :: rs := by rw [trimRightSemi, hr]
      rw [h1]
      rw [hr] at ih
      exact List.Sublist.cons₂ c ih

lemma trimRightSemi_eq_self : ∀ {l : List Char}, l.count ';' = 0 → trimRightSemi l = l := by
  intro l
  induction l with
  | nil => intro _; rfl
  | cons c rest ih =>
    intro h
    rw [List.count_cons] at h
    have hrest : rest.count ';' = 0 := by omega
    have hc : (c == ';') = false := by
      rcases hbe : c == ';' with _ | _
      · rfl
      · simp [hbe] at h
    rw [trimRightSemi, ih hrest]
    cases rest with
    | nil => simp [hc]
    | cons d t => rfl

lemma endsSemi_eq_false_of_count : ∀ {l : List Char}, l.count ';' = 0 → endsSemi l = false := by
  intro l
  induction l with
  | nil => intro _; rfl
  | cons c rest ih =>
    intro h
    rw [List.count_cons] at h
    cases rest with
    | nil =>
      have hc : (c == ';') = false := by
        rcases hbe : c == ';' with _ | _
        · rfl
        · simp [hbe] at h
      simp [endsSemi, hc]
    | cons d t =>
      rw [endsSemi]
      exact ih (by omega)

lemma count_dropLast_le (m : List Char) (a : Char) :
    m.count a ≤ m.dropLast.count a + 1 := by
  induction m with
  | nil => simp
  | cons c rest ih =>
    cases rest with
    | nil =>
      rw [List.dropLast_single]
      simp [List.count_cons]
      split <;> omega
    | cons d t =>
      rw [List.dropLast_cons₂]
      simp only [List.count_cons] at ih ⊢
      omega

lemma count_removeTrailingSemi (l : List Char) :
    l.count ';' ≤ (removeTrailingSemi l).count ';' + 1 := by
  rw [removeTrailingSemi]
  by_cases he : endsSemi (trimRight l) = true
  · rw [if_pos he]
    have h1 : (trimRight l).count ';' = l.count ';' := count_trimRight (by decide) l
    have h2 := count_dropLast_le (trimRight l) ';'
    omega
  · rw [if_neg he]
    omega

lemma removeTrailingSemi_eq_self {l : List Char} (h1 : trimRight l = l)
    (h2 : endsSemi l = false) : removeTrailingSemi l = l := by
  rw [removeTrailingSemi, h1, h2]
  simp

lemma fence_shape {l : List Char} (h : isFenceAt l = true) :
    ∃ d e f rest', l = btick :: btick :: btick :: d :: e :: f :: rest' ∧
      (d = 's' ∨ d = 'S') ∧ (e = 'q' ∨ e = 'Q') ∧ (f = 'l' ∨ f = 'L') := by
  match l with
  | [] | [_] | [_, _] | [_, _, _] | [_, _, _, _] | [_, _, _, _, _] => simp [isFenceAt] at h
  | a :: b :: c :: d :: e :: f :: rest' =>
    rw [isFenceAt] at h
    simp only [Bool.and_eq_true, Bool.or_eq_true, beq_iff_eq] at h
    obtain ⟨⟨⟨⟨⟨ha, hb⟩, hc⟩, hd⟩, he⟩, hf⟩ := h
    subst ha; subst hb; subst hc
    exact ⟨d, e, f, rest', rfl, hd, he, hf⟩

lemma count_goFences : ∀ (fuel : Nat) (l : List Char), l.length ≤ fuel →
    (goFences fuel l).count ';' = l.count ';' := by
  intro fuel
  induction fuel with
  | zero => intro l _; rfl
  | succ n ih =>
    intro l hlen
    cases l with
    | nil => rfl
    | cons c rest =>
      by_cases hf : isFenceAt (c :: rest) = true
      · obtain ⟨d, e, f, rest', hshape, hd, he, hfl⟩ := fence_shape hf
        rw [hshape] at hlen ⊢
        rw [goFences, if_pos (by rw [← hshape]; exact hf)]
        simp only [List.drop_succ_cons, List.drop_zero]
        have hlen' : (rest'.dropWhile isPyWS).length ≤ n := by
          have hd1 : (rest'.dropWhile isPyWS).length ≤ rest'.length :=
            (List.dropWhile_sublist _).length_le
          simp at hlen
          omega
        rw [ih _ hlen', count_dropWhile_of_not (by decide)]
        have hdn : (d == ';') = false := by rcases hd with h | h <;> simp [h]
        have hen : (e == ';') = false := by rcases he with h | h <;> simp [h]
        have hfn : (f == ';') = false := by rcases hfl with h | h <;> simp [h]
        have hbn : (btick == ';') = false := by decide
        simp [List.count_cons, hdn, hen, hfn, hbn]
      · rw [goFences, if_neg hf]
        have hlen' : rest.length ≤ n := by simp at hlen; omega
        rw [List.count_cons, List.count_cons, ih rest hlen']

lemma goFences_no_fence : ∀ (fuel : Nat) (l : List Char),
    (∀ i, isFenceAt (l.drop i) = false) → goFences fuel l = l := by
  intro fuel
  induction fuel with
  | zero => intro l _; rfl
  | succ n ih =>
    intro l h
    cases l with
    | nil => rfl
    | cons c rest =>
      have h0 : isFenceAt (c :: rest) = false := by have := h 0; simpa using this
      rw [goFences, if_neg (by simp [h0])]
      congr 1
      exact ih rest fun i => by have := h (i + 1); rwa [List.drop_succ_cons] at this

lemma no_fence_of_hasFenceB {l : List Char} (h : hasFenceB l = false) :
    ∀ i, isFenceAt (l.drop i) = false := by
  intro i
  rcases le_or_lt (l.length + 1) i with hi | hi
  · rw [List.drop_eq_nil_of_le (by omega)]
    rfl
  · by_contra htrue
    have hmem : isFenceAt (l.drop i) = true := by
      rcases hb : isFenceAt (l.drop i) with _ | _
      · exact absurd hb htrue
      · rfl
    have hx : hasFenceB l = true := by
      rw [hasFenceB, List.any_eq_true]
      exact ⟨i, List.mem_range.mpr hi, hmem⟩
    rw [h] at hx
    cases hx

lemma multiStmtB_count {c : List Char} (h : multiStmtB c = false) : c.count ';' = 0 := by
  rw [multiStmtB] at h
  simp only [Bool.or_eq_false_iff, decide_eq_false_iff_not] at h
  omega

lemma validateR_valid_inv {s n : List Char} (h : validateR s = .valid n) :
    multiStmtB (cleanedText s) = false ∧ n = normText s ∧
    sqlparseFindings (normText s) = [] ∧ regexHit (normText s) = false := by
  rw [validateR, validateWithR] at h
  by_cases hm : multiStmtB (cleanedText s) = true
  · rw [if_pos hm] at h
    cases h
  · rw [if_neg hm] at h
    have hm' : multiStmtB (cleanedText s) = false := eq_false_of_ne_true hm
    cases hf : sqlparseFindings (normText s) with
    | nil =>
      rw [sqlparseModel, hf] at h
      by_cases hr : regexHit (normText s) = true
      · simp [hr] at h
      · have hr' : regexHit (normText s) = false := eq_false_of_ne_true hr
        simp [hr'] at h
        exact ⟨hm', h.symm, rfl, hr'⟩
    | cons w ws =>
      rw [sqlparseModel, hf] at h
      simp at h

lemma orchGo_reject {cand : Nat → List Char}
    {execF : List Char → Except (List Char) (List Char)} {i fuel : Nat}
    (h : isValidV (validateR (cand i)) = false) :
    orchGo cand execF i (fuel + 1) =
      if maxAttempts ≤ i + 1 then (.exhausted, 1, 0)
      else ((orchGo cand execF (i + 1) fuel).1,
            (orchGo cand execF (i + 1) fuel).2.1 + 1,
            (orchGo cand execF (i + 1) fuel).2.2) := by
  rw [orchGo]
  cases hv : validateR (cand i) with
  | valid n => rw [hv, isValidV] at h; cases h
  | multipleStatements => rfl
  | forbidden fs => rfl
  | unsafePattern => rfl

lemma connectLoop_skip_failures {α : Type} (A B : List (Candidate α)) (c : α)
    (h : ∀ p ∈ A, p.1 = none) :
    connectLoop (A ++ (some c, true) :: B) none = (some c, some c, A.length + 1) := by
  induction A with
  | nil => rfl
  | cons p A' ih =>
    obtain ⟨oc, lo⟩ := p
    have hoc : oc = none := h (oc, lo) (List.mem_cons_self _ _)
    subst hoc
    rw [List.cons_append, connectLoop,
      ih (fun q hq => h q (List.mem_cons_of_mem _ hq))]
    simp

lemma connectLoop_all_fail {α : Type} : ∀ (Q : List (Candidate α)) (cache : Option α),
    (∀ p ∈ Q, p.1 = none) → connectLoop Q cache = (none, cache, Q.length) := by
  intro Q
  induction Q with
  | nil => intro cache _; rfl
  | cons p Q' ih =>
    intro cache h
    obtain ⟨oc, lo⟩ := p
    have hoc : oc = none := h (oc, lo) (List.mem_cons_self _ _)
    subst hoc
    rw [connectLoop, ih cache (fun q hq => h q (List.mem_cons_of_mem _ hq))]
    simp

lemma trimRight_pyStrip (s : List Char) : trimRight (pyStrip s) = pyStrip s := by
  rw [pyStrip]
  exact trimRight_idem _

lemma validateR_of_cleaned_nil {s : List Char} (h : cleanedText s = []) :
    validateR s = .valid [] := by
  have hn : normText s = [] := by rw [normText, h]; rfl
  rw [validateR, validateWithR, h, hn]
  decide

/-! ## Claim theorems -/

/-- C2: for every candidate text containing two or more statement
terminators, or exactly one terminator that is not at the very end of
the stripped text, `validate` rejects with the multiple-statements
reason; in particular the spec's scenario
`"SELECT * FROM orders; DROP TABLE orders;"` is rejected so. -/
theorem c2_multiple_statements :
    (∀ s : List Char,
      (2 ≤ s.count ';' ∨ (s.count ';' = 1 ∧ endsSemi (pyStrip s) = false)) →
      validateR s = .multipleStatements) ∧
    validateR "SELECT * FROM orders; DROP TABLE orders;".toList = .multipleStatements := by
  constructor
  · intro s hs
    have hps : (pyStrip s).count ';' = s.count ';' := count_pyStrip (by decide) s
    have hcnt : 1 ≤ (cleanedText s).count ';' := by
      rw [cleanedText, removeFences, count_goFences _ _ le_rfl]
      rcases hs with h2 | ⟨h1, hend⟩
      · have hr := count_removeTrailingSemi (pyStrip s)
        omega
      · rw [removeTrailingSemi, trimRight_pyStrip, hend, if_neg (by simp)]
        omega
    have hmulti : multiStmtB (cleanedText s) = true := by
      rw [multiStmtB]
      have hd : decide (0 < (cleanedText s).count ';') = true := by
        rw [decide_eq_true_iff]
        omega
      rw [hd, Bool.true_or]
    rw [validateR, validateWithR, if_pos hmulti]
  · decide

/-- C2 witness: a two-terminator input discharges the hypothesis. -/
theorem c2_witness :
    2 ≤ ("SELECT 1; SELECT 2;".toList).count ';' ∧
    validateR "SELECT 1; SELECT 2;".toList = .multipleStatements :=
  ⟨by decide, c2_multiple_statements.1 _ (Or.inl (by decide))⟩

/-- C3 counterexample: the claim says the empty candidate is rejected
with an empty-query reason, but `validate_sql` has no such check — the
empty string flows through every layer and is accepted, returning
`"Valid: "` with empty normalized text. -/
theorem c3_counterexample :
    validateR [] = .valid [] ∧ validate_sql [] = "Valid: ".toList := by
  decide

/-- C3 amended: every candidate consisting only of whitespace is
accepted with empty normalized text (the code has no EMPTY_QUERY
rejection). -/
theorem c3_amended :
    ∀ s : List Char, (∀ c ∈ s, isPyWS c = true) → validateR s = .valid [] := by
  intro s hws
  have h1 : lstripWS s = [] := by
    rw [lstripWS, List.dropWhile_eq_nil_iff]
    exact hws
  have h2 : pyStrip s = [] := by rw [pyStrip, h1]; rfl
  have h3 : cleanedText s = [] := by rw [cleanedText, h2]; decide
  exact validateR_of_cleaned_nil h3

/-- C3 witness: whitespace-only input. -/
theorem c3_witness :
    (∀ c ∈ "  \n ".toList, isPyWS c = true) ∧ validateR "  \n ".toList = .valid [] :=
  ⟨by decide, c3_amended _ (by decide)⟩

/-- C5: whenever the structural layer raises (`f _ = none`, the
exception is swallowed at line 146) or finds nothing (`f _ = some []`),
the regex fallback still runs over the normalized text, and a hit —
forbidden vocabulary, a line-comment or a block-comment opener — is
rejected as an unsafe pattern. Quantifying over every structural layer
`f` shows the validator never fails open on input the parser cannot
classify. -/
theorem c5_fallback :
    ∀ (f : List Char → Option (List (List Char))) (s : List Char),
    multiStmtB (cleanedText s) = false →
    (f (normText s) = none ∨ f (normText s) = some []) →
    regexHit (normText s) = true →
    validateWithR f s = .unsafePattern := by
  intro f s hm hf hr
  rw [validateWithR, if_neg (by simp [hm])]
  rcases hf with hf | hf <;> rw [hf] <;> simp [hr]

/-- C5 witness: a throwing structural layer over a line comment. -/
theorem c5_witness :
    multiStmtB (cleanedText "SELECT a FROM t -- note".toList) = false ∧
    regexHit (normText "SELECT a FROM t -- note".toList) = true ∧
    validateWithR (fun _ => none) "SELECT a FROM t -- note".toList = .unsafePattern :=
  ⟨by decide, by decide, c5_fallback _ _ (by decide) (Or.inl rfl) (by decide)⟩

/-- C1 counterexample: the claim lists exec among the keywords that
yield a FORBIDDEN_OPERATION rejection naming the keyword, but the
sqlparse layer's `forbidden_types` set lacks EXEC, EXECUTE and REPLACE:
`"EXEC x"` falls through to the regex layer and is rejected as an
unsafe pattern, a message that names no keyword. -/
theorem c1_counterexample :
    validateR "EXEC x".toList = .unsafePattern ∧
    validate_sql "EXEC x".toList = "ERROR: Unsafe SQL pattern detected".toList := by
  decide

/-- C1 amended: with no statement terminator remaining after cleaning,
a candidate whose word tokens (outside literals and comments) include a
keyword of the structural set insert, update, delete, alter, drop,
create, truncate, grant, revoke, merge, commit is rejected as
FORBIDDEN_OPERATION reporting a keyword of that set — also when the
keyword is nested inside a sub-query or parenthesized block; candidates
whose only forbidden vocabulary is replace, exec or execute escape the
structural layer (findings empty) and are rejected as UNSAFE_PATTERN
without the keyword being reported. -/
theorem c1_forbidden_amended :
    (∀ s : List Char, multiStmtB (cleanedText s) = false →
      (∃ w ∈ sqlparseWords (normText s), forbiddenStructural.contains (upperL w) = true) →
      ∃ w, forbiddenStructural.contains (upperL w) = true ∧
        validateR s = .forbidden [upperL w]) ∧
    (∀ s : List Char, multiStmtB (cleanedText s) = false →
      sqlparseFindings (normText s) = [] →
      (∃ w ∈ regexWords (normText s),
        upperL w = "REPLACE".toList ∨ upperL w = "EXEC".toList ∨
          upperL w = "EXECUTE".toList) →
      validateR s = .unsafePattern) := by
  constructor
  · intro s hm hex
    have hne : (sqlparseWords (normText s)).find?
        (fun w => forbiddenStructural.contains (upperL w)) ≠ none := by
      intro hnone
      rw [List.find?_eq_none] at hnone
      obtain ⟨w, hmem, hp⟩ := hex
      exact hnone w hmem (by rw [hp])
    cases hfind : (sqlparseWords (normText s)).find?
        (fun w => forbiddenStructural.contains (upperL w)) with
    | none => exact absurd hfind hne
    | some w =>
      refine ⟨w, ?_, ?_⟩
      · have hpw := List.find?_some hfind
        simpa using hpw
      · rw [validateR, validateWithR, if_neg (by simp [hm]), sqlparseModel,
          sqlparseFindings, hfind]
  · intro s hm hemp hex
    have hr : regexHit (normText s) = true := by
      rw [regexHit]
      have hany : (regexWords (normText s)).any
          (fun w => forbiddenRegexWords.contains (upperL w)) = true := by
        rw [List.any_eq_true]
        obtain ⟨w, hmem, hp⟩ := hex
        refine ⟨w, hmem, ?_⟩
        rcases hp with hp | hp | hp <;> rw [hp] <;> decide
      rw [hany, Bool.true_or, Bool.true_or]
    rw [validateR, validateWithR, if_neg (by simp [hm]), sqlparseModel, hemp]
    simp [hr]

/-- C1 witness: a forbidden keyword nested in a parenthesized block,
and a REPLACE candidate that only the regex layer rejects. -/
theorem c1_witness :
    (∃ w ∈ sqlparseWords (normText "SELECT * FROM (DELETE FROM x)".toList),
      forbiddenStructural.contains (upperL w) = true) ∧
    (∃ w, forbiddenStructural.contains (upperL w) = true ∧
      validateR "SELECT * FROM (DELETE FROM x)".toList = .forbidden [upperL w]) ∧
    validateR "REPLACE INTO t VALUES (1)".toList = .unsafePattern := by
  refine ⟨by decide, ?_, ?_⟩
  · exact c1_forbidden_amended.1 _ (by decide) (by decide)
  · exact c1_forbidden_amended.2 _ (by decide) (by decide) (by decide)

/-- C9 counterexample: the claim says re-validating the normalized text
of an accepted candidate accepts with the same normalized text, but
fence removal is not idempotent: deleting one fence opener can splice a
new one together. The accepted candidate of six backticks followed by
sqlsql normalizes to a three-backtick sql opener, and re-validating
that text normalizes it away to the empty string. -/
theorem c9_counterexample :
    validateR "``````sqlsql".toList = .valid "```sql".toList ∧
    validateR "```sql".toList = .valid [] ∧
    validateR "```sql".toList ≠ .valid "```sql".toList := by
  decide

/-- C9 amended: re-validation is idempotent whenever the accepted
normalized text contains no sql fence-opener substring: then
`validate` accepts it again with the identical normalized text. -/
theorem c9_idempotent_amended :
    ∀ s n : List Char, validateR s = .valid n → hasFenceB n = false →
    validateR n = .valid n := by
  intro s n h hf
  obtain ⟨hm, hn, hfind, hreg⟩ := validateR_valid_inv h
  have hcount0 : (cleanedText s).count ';' = 0 := multiStmtB_count hm
  have hcn : n.count ';' = 0 := by
    have h1 : (trimRightSemi (cleanedText s)).count ';' ≤ (cleanedText s).count ';' :=
      (trimRightSemi_sublist _).count_le ';'
    have h2 : n.count ';' = (trimRightSemi (cleanedText s)).count ';' := by
      rw [hn, normText]
      exact count_pyStrip (by decide) _
    omega
  have hps : pyStrip n = n := by
    rw [hn, normText]
    exact pyStrip_idem _
  have htr : trimRight n = n := by
    rw [hn, normText, pyStrip]
    exact trimRight_idem _
  have hends : endsSemi n = false := endsSemi_eq_false_of_count hcn
  have hrts : removeTrailingSemi n = n := removeTrailingSemi_eq_self htr hends
  have hfences : removeFences n = n := by
    rw [removeFences]
    exact goFences_no_fence _ n (no_fence_of_hasFenceB hf)
  have hclean : cleanedText n = n := by rw [cleanedText, hps, hrts, hfences]
  have hnorm : normText n = n := by
    rw [normText, hclean, trimRightSemi_eq_self hcn, hps]
  have hmulti : multiStmtB n = false := by
    rw [multiStmtB, hends]
    simp [hcn]
  rw [← hn] at hfind hreg
  rw [validateR, validateWithR, hclean, hnorm, if_neg (by simp [hmulti]),
    sqlparseModel, hfind]
  simp [hreg]

/-- C9 witness: an accepted candidate whose normalized text has no
fence opener re-validates to the same accept. -/
theorem c9_witness :
    validateR "SELECT 9;".toList = .valid "SELECT 9".toList ∧
    hasFenceB "SELECT 9".toList = false ∧
    validateR "SELECT 9".toList = .valid "SELECT 9".toList :=
  ⟨by decide, by decide,
    c9_idempotent_amended "SELECT 9;".toList "SELECT 9".toList (by decide) (by decide)⟩

lemma vmsg_valid_not_error (n : List Char) :
    hasPrefixSeq (vmsg (.valid n)) errTok = false := by
  have h1 : vmsg (.valid n) = 'V' :: ("alid: ".toList ++ n) := by
    have hv : "Valid: ".toList = 'V' :: "alid: ".toList := by decide
    rw [vmsg, hv]
    rfl
  have h2 : errTok = 'E' :: "RROR".toList := by decide
  rw [h1, h2, hasPrefixSeq]
  simp

/-- C4 counterexample: the claim says the engine runs the verdict's
normalized text, but `execute_sql` hands `conn.execute` the raw
candidate: for `"SELECT 1;"` the verdict's normalized text is
`"SELECT 1"` while the text reaching the connection is the raw
`"SELECT 1;"`. -/
theorem c4_counterexample :
    validateR "SELECT 1;".toList = .valid "SELECT 1".toList ∧
    execDbInput "SELECT 1;".toList = some "SELECT 1;".toList ∧
    "SELECT 1;".toList ≠ "SELECT 1".toList := by
  decide

/-- C4 amended: for every accepted candidate the engine runs the raw,
pre-normalization candidate text against the connection — the database
collaborator is applied to the raw `sql`, never to the verdict's
normalized text. -/
theorem c4_raw_text_amended :
    ∀ (db : List Char → Except (List Char) (List Char)) (sql n : List Char),
    validateR sql = .valid n →
    execDbInput sql = some sql ∧
    execute_sqlR db sql = (match db sql with
      | .ok r => r
      | .error e => execFailMsg e sql) := by
  intro db sql n h
  have hpre : hasPrefixSeq (vmsg (validateR sql)) errTok = false := by
    rw [h]
    exact vmsg_valid_not_error n
  constructor
  · rw [execDbInput, if_neg (by simp [hpre])]
  · rw [execute_sqlR, if_neg (by simp [hpre])]

/-- C4 witness: an accepted candidate reaches the engine raw. -/
theorem c4_witness :
    validateR "SELECT 2;".toList = .valid "SELECT 2".toList ∧
    execDbInput "SELECT 2;".toList = some "SELECT 2;".toList :=
  ⟨by decide,
    (c4_raw_text_amended (fun _ => .ok []) "SELECT 2;".toList "SELECT 2".toList
      (by decide)).1⟩

/-- C6: for every execution failure the engine returns the
exception-handler message — a total function of the captured error text
and the failed SQL, both contained in the returned message — instead of
propagating the exception. -/
theorem c6_failure_capture :
    ∀ (db : List Char → Except (List Char) (List Char)) (sql e : List Char),
    hasPrefixSeq (vmsg (validateR sql)) errTok = false →
    db sql = .error e →
    execute_sqlR db sql = execFailMsg e sql ∧
    ContainsSeq (execute_sqlR db sql) e ∧ ContainsSeq (execute_sqlR db sql) sql := by
  intro db sql e hv hdb
  have h1 : execute_sqlR db sql = execFailMsg e sql := by
    rw [execute_sqlR, if_neg (by simp [hv]), hdb]
  refine ⟨h1, ?_, ?_⟩
  · rw [h1, execFailMsg]
    exact ⟨execFailHead, execFailMid ++ sql ++ execFailTail, by simp [List.append_assoc]⟩
  · rw [h1, execFailMsg]
    exact ⟨execFailHead ++ e ++ execFailMid, execFailTail, by simp [List.append_assoc]⟩

/-- C6 witness: a database collaborator that raises a syntax error. -/
theorem c6_witness :
    hasPrefixSeq (vmsg (validateR "SELECT 3".toList)) errTok = false ∧
    execute_sqlR (fun _ => .error "Parser Error: syntax error".toList)
        "SELECT 3".toList =
      execFailMsg "Parser Error: syntax error".toList "SELECT 3".toList :=
  ⟨by decide,
    (c6_failure_capture (fun _ => .error "Parser Error: syntax error".toList)
      "SELECT 3".toList "Parser Error: syntax error".toList (by decide) rfl).1⟩

/-- C7 (modelled from the spec, section 4.4, since the repository's
retry loop exists only as prompt text): with a generation/correction
collaborator whose every candidate the validator rejects, the
orchestration reaches Exhausted after exactly 3 attempts and the
Execution Engine is never called. -/
theorem c7_exhausted_without_execution :
    ∀ (cand : Nat → List Char) (execF : List Char → Except (List Char) (List Char)),
    (∀ i, isValidV (validateR (cand i)) = false) →
    orchRun cand execF = (.exhausted, 3, 0) := by
  intro cand execF h
  have e2 : orchGo cand execF 2 1 = (.exhausted, 1, 0) := by
    rw [@orchGo_reject cand execF 2 0 (h 2)]
    simp [maxAttempts]
  have e1 : orchGo cand execF 1 2 = (.exhausted, 2, 0) := by
    rw [@orchGo_reject cand execF 1 1 (h 1)]
    simp [maxAttempts, e2]
  have e0 : orchGo cand execF 0 3 = (.exhausted, 3, 0) := by
    rw [@orchGo_reject cand execF 0 2 (h 0)]
    simp [maxAttempts, e1]
  exact e0

/-- C7 witness: a collaborator that always produces a forbidden DROP. -/
theorem c7_witness :
    (∀ i : Nat, isValidV (validateR ((fun _ => "DROP TABLE t".toList) i)) = false) ∧
    orchRun (fun _ => "DROP TABLE t".toList) (fun _ => .ok []) = (.exhausted, 3, 0) :=
  ⟨fun _ => (by decide : isValidV (validateR "DROP TABLE t".toList) = false),
    c7_exhausted_without_execution (fun _ => "DROP TABLE t".toList) (fun _ => .ok [])
      (fun _ => (by decide : isValidV (validateR "DROP TABLE t".toList) = false))⟩

/-- C8: with candidates whose first block all fail to open,
`get_db_connection` returns a handle bound to the first succeeding
candidate after attempting exactly the failing prefix plus that
candidate, caches it, and a second call from the same worker returns
the identical cached handle attempting no candidate; when every
candidate fails to open, it raises the no-available-data-source
error. -/
theorem c8_connection_failover :
    ∀ {α : Type} (A B : List (Candidate α)) (c : α),
    (∀ p ∈ A, p.1 = none) →
    get_db_connection (A ++ (some c, true) :: B) none = (.ok c, some c, A.length + 1) ∧
    get_db_connection (A ++ (some c, true) :: B) (some c) = (.ok c, some c, 0) ∧
    (∀ Q : List (Candidate α), (∀ p ∈ Q, p.1 = none) →
      get_db_connection Q none = (.error noDataSourceMsg, none, Q.length)) := by
  intro α A B c h
  refine ⟨?_, rfl, ?_⟩
  · rw [get_db_connection, connectLoop_skip_failures A B c h]
  · intro Q hQ
    rw [get_db_connection, connectLoop_all_fail Q none hQ]

/-- C8 witness: two failing candidates, then a succeeding one. -/
theorem c8_witness :
    (∀ p ∈ ([(none, true), (none, false)] : List (Candidate Nat)), p.1 = none) ∧
    get_db_connection
        (([(none, true), (none, false)] : List (Candidate Nat)) ++
          (some 7, true) :: [(some 5, true)]) none = (.ok 7, some 7, 3) ∧
    get_db_connection
        (([(none, true), (none, false)] : List (Candidate Nat)) ++
          (some 7, true) :: [(some 5, true)]) (some 7) = (.ok 7, some 7, 0) ∧
    get_db_connection ([(none, true)] : List (Candidate Nat)) none =
      (.error noDataSourceMsg, none, 1) := by
  have hc := @c8_connection_failover Nat [(none, true), (none, false)]
    [(some 5, true)] 7 (by decide)
  exact ⟨by decide, hc.1, hc.2.1, hc.2.2 [(none, true)] (by decide)⟩

/-- C10: the Execution Engine re-validates its input — for every SQL
text the validator rejects, `execute_sql` returns the cannot-execute
message, which contains the rejection text and the problematic SQL, and
hands nothing to the connection. -/
theorem c10_execute_guard :
    ∀ (db : List Char → Except (List Char) (List Char)) (sql : List Char),
    hasPrefixSeq (vmsg (validateR sql)) errTok = true →
    execDbInput sql = none ∧
    execute_sqlR db sql = cannotExecMsg (vmsg (validateR sql)) sql ∧
    ContainsSeq (execute_sqlR db sql) (vmsg (validateR sql)) ∧
    ContainsSeq (execute_sqlR db sql) sql := by
  intro db sql h
  have h1 : execute_sqlR db sql = cannotExecMsg (vmsg (validateR sql)) sql := by
    rw [execute_sqlR, if_pos h]
  refine ⟨?_, h1, ?_, ?_⟩
  · rw [execDbInput, if_pos h]
  · rw [h1, cannotExecMsg]
    exact ⟨cannotExecHead, cannotExecMid ++ sql ++ cannotExecTail,
      by simp [List.append_assoc]⟩
  · rw [h1, cannotExecMsg]
    exact ⟨cannotExecHead ++ vmsg (validateR sql) ++ cannotExecMid, cannotExecTail,
      by simp [List.append_assoc]⟩

/-- C10 witness: a forbidden DELETE never reaches the connection. -/
theorem c10_witness :
    hasPrefixSeq (vmsg (validateR "DELETE FROM t".toList)) errTok = true ∧
    execDbInput "DELETE FROM t".toList = none :=
  ⟨by decide, (c10_execute_guard (fun _ => .ok []) "DELETE FROM t".toList (by decide)).1⟩

end TextToSql
